import Mathlib

/-!
Shallow embedding of the EdgePilot policy-selection core
(`edgepilot/app.py`, `edgepilot/policy_store.py`, `edgepilot/job_store.py`).

Python floats are modelled by `PyFloat` (a rational value, or one of the
non-finite values NaN / +inf / -inf); timestamps by `Int`; dictionaries by
association lists looked up at the first matching key (Python dict keys are
unique, and insertion replaces in place, which `dictInsert` mirrors).
-/

/-- Model of a Python float: a finite rational, or NaN, or plus/minus infinity. -/
inductive PyFloat where
  | fin (q : ℚ)
  | nan
  | inf
  | ninf
deriving DecidableEq, Repr

/-- Model of `math.isfinite`. -/
def PyFloat.isFinite : PyFloat → Bool
  | .fin _ => true
  | _ => false

/-- Model of Python `float(value)` restricted to plain decimal literals
(optional sign, digits, optional fractional part): returns the parsed rational,
or `none` on the `ValueError` path.  Exponent / `inf` / `nan` literals are not
modelled; no guardrail string in this development uses them. -/
def digits_to_nat (ds : List Char) : Nat :=
  ds.foldl (fun acc c => acc * 10 + (c.toNat - '0'.toNat)) 0

def parse_unsigned_lit (s : List Char) : Option ℚ :=
  let intPart := s.takeWhile Char.isDigit
  let rest := s.dropWhile Char.isDigit
  match rest with
  | [] => if intPart.isEmpty then none else some (digits_to_nat intPart : ℚ)
  | '.' :: frac =>
      if frac.all Char.isDigit && (!intPart.isEmpty || !frac.isEmpty) then
        some ((digits_to_nat intPart : ℚ) + (digits_to_nat frac : ℚ) / (10 : ℚ) ^ frac.length)
      else none
  | _ => none

def parse_float_lit (s : List Char) : Option ℚ :=
  match s with
  | '+' :: rest => parse_unsigned_lit rest
  | '-' :: rest => (parse_unsigned_lit rest).map Neg.neg
  | _ => parse_unsigned_lit s

/-- Model of `s.split(pat, 1)` guarded by `pat in s`: splits `s` at the first
occurrence of `pat`, returning `none` when `pat` does not occur. -/
def split_at_sub (pat : List Char) : List Char → Option (List Char × List Char)
  | [] => if pat.isPrefixOf ([] : List Char) then some ([], []) else none
  | c :: rest =>
      if pat.isPrefixOf (c :: rest) then some ([], (c :: rest).drop pat.length)
      else (split_at_sub pat rest).map (fun pr => (c :: pr.1, pr.2))

/-- Embeds `_parse_guardrail` (app.py): strip spaces, try the operators
`<=`, `>=`, `<`, `>` in order; on the first operator found, split once and
parse the right-hand side as a float (an unparseable threshold aborts with
`None` rather than trying later operators). -/
def parse_guardrail_go (cleaned : List Char) : List (List Char) → Option (String × String × ℚ)
  | [] => none
  | op :: ops =>
      match split_at_sub op cleaned with
      | some (m, v) =>
          match parse_float_lit v with
          | some threshold => some (String.mk m, String.mk op, threshold)
          | none => none
      | none => parse_guardrail_go cleaned ops

def parse_guardrail (guardrail : String) : Option (String × String × ℚ) :=
  let cleaned := guardrail.data.filter (fun c => c ≠ ' ')
  parse_guardrail_go cleaned [['<', '='], ['>', '='], ['<'], ['>']]

/-- Embeds `_guardrail_failed` (app.py): a non-finite actual is always a
breach; otherwise the comparison is the negation of the guardrail's relation
(and an unknown operator string counts as a breach). -/
def guardrail_failed (actual : PyFloat) (operator : String) (threshold : ℚ) : Bool :=
  match actual with
  | .fin a =>
      if operator = "<=" then decide (a > threshold)
      else if operator = ">=" then decide (a < threshold)
      else if operator = "<" then decide (a ≥ threshold)
      else if operator = ">" then decide (a ≤ threshold)
      else true
  | _ => true

/-- One entry of the `penalties` list built by `guardrail_penalties_for_metrics`. -/
structure GuardrailPenalty where
  guardrail : String
  metric : String
  operator : String
  threshold : ℚ
  actual : PyFloat
deriving DecidableEq, Repr

/-- Loop body of `guardrail_penalties_for_metrics` (app.py): unparseable
guardrails and guardrails whose metric is absent from the map are skipped;
breached guardrails are counted and recorded. -/
def penalties_go (metrics : List (String × PyFloat)) : List String → Nat × List GuardrailPenalty
  | [] => (0, [])
  | g :: gs =>
      match parse_guardrail g with
      | none => penalties_go metrics gs
      | some (metric, operator, threshold) =>
          match metrics.lookup metric with
          | none => penalties_go metrics gs
          | some actual =>
              if guardrail_failed actual operator threshold then
                let rest := penalties_go metrics gs
                (rest.1 + 1, ⟨g, metric, operator, threshold, actual⟩ :: rest.2)
              else penalties_go metrics gs

/-- A recorded KPI run of a policy (policy_store.py `PolicyRun`). -/
structure PolicyRun where
  timestamp : Int
  workload_label : Option String
  kpis : List (String × PyFloat)
  notes : Option String
deriving DecidableEq, Repr

/-- A stored policy (policy_store.py `PolicyRecord`). -/
structure PolicyRecord where
  id : String
  name : String
  description : String
  intent : String
  target_workloads : List String
  guardrails : List String
  embedding : List ℚ
  kpis : List (String × PyFloat)
  notes : List String
  created_at : Int
  updated_at : Int
  last_verified_at : Option Int
  last_activation_token : Option String
  history : List PolicyRun
deriving DecidableEq, Repr

def guardrail_penalties_for_metrics (record : PolicyRecord) (metrics : List (String × PyFloat)) :
    Nat × List GuardrailPenalty :=
  penalties_go metrics record.guardrails

/-- Result dictionary of `score_policy_for_batch` (app.py). -/
structure ScoreResult where
  policy : PolicyRecord
  score : ℚ
  overlap : Nat
  history_bonus : ℚ
  guardrail_penalties : List GuardrailPenalty
deriving DecidableEq, Repr

/-- Embeds `score_policy_for_batch` (app.py): overlap bonus, capped history
bonus, verification bonus, minus 1.5 per breached guardrail. -/
def score_policy_for_batch (record : PolicyRecord) (workload_tags : Finset String)
    (metrics : List (String × PyFloat)) : ScoreResult :=
  let overlap := (workload_tags ∩ record.target_workloads.toFinset).card
  let base₀ : ℚ := 1.0 + (overlap : ℚ) * 2.0
  let history_bonus : ℚ := (min record.history.length 5 : ℚ) * 0.25
  let base₁ := base₀ + history_bonus
  let base₂ := if record.last_verified_at.isSome then base₁ + 0.5 else base₁
  let pens := guardrail_penalties_for_metrics record metrics
  { policy := record
    score := base₂ - (pens.1 : ℚ) * 1.5
    overlap := overlap
    history_bonus := history_bonus
    guardrail_penalties := pens.2 }

/-- A guardrail counts as breached during batch scoring iff it parses, its
metric is present in the metrics map, and `guardrail_failed` holds. -/
def guardrail_breached (metrics : List (String × PyFloat)) (g : String) : Bool :=
  match parse_guardrail g with
  | none => false
  | some (metric, operator, threshold) =>
      match metrics.lookup metric with
      | none => false
      | some actual => guardrail_failed actual operator threshold

/-- One violation entry produced by `evaluate_guardrails` (app.py); the three
constructors carry exactly the fields of the three dictionaries the Python
code builds (unparseable expression / metric not supplied / metric breached). -/
inductive Violation where
  | unparseable (guardrail : String)
  | missing (guardrail metric : String) (threshold : ℚ)
  | breached (guardrail metric : String) (threshold : ℚ) (actual : PyFloat) (operator : String)
deriving DecidableEq, Repr

/-- Embeds `evaluate_guardrails` (app.py): every guardrail of the record that
is unparseable, or whose metric is absent from the payload, or whose metric
breaches its (possibly overridden) threshold contributes one violation. -/
def evaluate_guardrails_go (metrics : List (String × PyFloat)) (overrides : List (String × ℚ)) :
    List String → List Violation
  | [] => []
  | g :: gs =>
      match parse_guardrail g with
      | none => .unparseable g :: evaluate_guardrails_go metrics overrides gs
      | some (metric, operator, threshold) =>
          let threshold := (overrides.lookup metric).getD threshold
          match metrics.lookup metric with
          | none => .missing g metric threshold :: evaluate_guardrails_go metrics overrides gs
          | some actual =>
              if guardrail_failed actual operator threshold then
                .breached g metric threshold actual operator ::
                  evaluate_guardrails_go metrics overrides gs
              else evaluate_guardrails_go metrics overrides gs

def evaluate_guardrails (record : PolicyRecord) (metrics : List (String × PyFloat))
    (overrides : List (String × ℚ)) : List Violation :=
  evaluate_guardrails_go metrics overrides record.guardrails

/-- The violation (if any) a single guardrail contributes, per the spec's
description of guardrail verification; used to state that
`evaluate_guardrails` yields one distinct violation per offending guardrail. -/
def violation_of (metrics : List (String × PyFloat)) (overrides : List (String × ℚ))
    (g : String) : Option Violation :=
  match parse_guardrail g with
  | none => some (.unparseable g)
  | some (metric, operator, threshold) =>
      let threshold := (overrides.lookup metric).getD threshold
      match metrics.lookup metric with
      | none => some (.missing g metric threshold)
      | some actual =>
          if guardrail_failed actual operator threshold then
            some (.breached g metric threshold actual operator)
          else none

/-- The policy store's in-memory dict `id -> record`, modelled as the list of
records in insertion order (as `PolicyStore.list` returns them). -/
abbrev PolicyStoreState := List PolicyRecord

def policy_store_get (store : PolicyStoreState) (policy_id : String) : Option PolicyRecord :=
  store.find? (fun r => r.id == policy_id)

/-- Python-dict insertion: replace the entry with the same key in place, else
append at the end. -/
def policy_store_put (store : PolicyStoreState) (record : PolicyRecord) : PolicyStoreState :=
  match store with
  | [] => [record]
  | r :: rest =>
      if r.id = record.id then record :: rest else r :: policy_store_put rest record

/-- Embeds `PolicyStore.upsert` (policy_store.py): bump `updated_at`, store
under the record's id, persist. -/
def PolicyStore.upsert (store : PolicyStoreState) (record : PolicyRecord) (now : Int) :
    PolicyRecord × PolicyStoreState :=
  let record := { record with updated_at := now }
  (record, policy_store_put store record)

/-- Embeds `PolicyStore.create` (policy_store.py): build a fresh record
(empty history, no verification) and upsert it by id. -/
def PolicyStore.create (store : PolicyStoreState) (policy_id name description intent : String)
    (target_workloads guardrails : List String) (embedding : Option (List ℚ))
    (kpis : List (String × PyFloat)) (notes : List String) (now : Int) :
    PolicyRecord × PolicyStoreState :=
  PolicyStore.upsert store
    { id := policy_id
      name := name
      description := description
      intent := intent
      target_workloads := target_workloads
      guardrails := guardrails
      embedding := embedding.getD []
      kpis := kpis
      notes := notes
      created_at := now
      updated_at := now
      last_verified_at := none
      last_activation_token := none
      history := [] }
    now

/-- Embeds `PolicyStore.register_verification` (policy_store.py) on the state
of an existing policy: set `last_verified_at` and `last_activation_token`,
bump `updated_at`. -/
def register_verification (store : PolicyStoreState) (policy_id token : String) (now : Int) :
    PolicyStoreState :=
  store.map (fun r =>
    if r.id = policy_id then
      { r with last_verified_at := some now, last_activation_token := some token,
               updated_at := now }
    else r)

/-- Embeds the notes branch of `PolicyStore.update_metadata` (policy_store.py)
used by the verify endpoint for dry-run notes. -/
def update_metadata_notes (store : PolicyStoreState) (policy_id : String)
    (notes : List String) (now : Int) : PolicyStoreState :=
  store.map (fun r =>
    if r.id = policy_id then { r with notes := notes, updated_at := now } else r)

/-- Outcome of the `/policies/{id}/verify` endpoint. -/
inductive VerifyResult where
  | notFound
  | badRequest
  | rejected (violations : List Violation)
  | ok (activation_token : String)
deriving DecidableEq, Repr

/-- Embeds `policies_verify` (app.py).  The freshly generated token and the
current time are passed in as parameters (they are nondeterministic inputs of
the endpoint). -/
def policies_verify (store : PolicyStoreState) (policy_id : String)
    (metrics : List (String × PyFloat)) (overrides : List (String × ℚ))
    (dry_run_notes : Option String) (token : String) (now : Int) :
    VerifyResult × PolicyStoreState :=
  match policy_store_get store policy_id with
  | none => (.notFound, store)
  | some record =>
      if metrics.isEmpty then (.badRequest, store)
      else
        let violations := evaluate_guardrails record metrics overrides
        if violations.isEmpty then
          let store₁ := register_verification store policy_id token now
          let store₂ :=
            match dry_run_notes with
            | none => store₁
            | some note =>
                match policy_store_get store₁ policy_id with
                | none => store₁
                | some updated => update_metadata_notes store₁ policy_id (updated.notes ++ [note]) now
          (.ok token, store₂)
        else (.rejected violations, store)

/-- Embeds `policies_create` (app.py): `req.policy_id or generated_id`
(Python's `or` also replaces an empty string), then `PolicyStore.create`,
which upserts by id — the endpoint never checks for an existing record. -/
def policies_create (store : PolicyStoreState) (req_policy_id : Option String)
    (generated_id : String) (name description intent : String)
    (target_workloads guardrails : List String) (embedding : Option (List ℚ))
    (kpis : List (String × PyFloat)) (notes : List String) (now : Int) :
    PolicyRecord × PolicyStoreState :=
  let policy_id :=
    match req_policy_id with
    | some s => if s = "" then generated_id else s
    | none => generated_id
  PolicyStore.create store policy_id name description intent target_workloads guardrails
    embedding kpis notes now

/-- A job run record (job_store.py `JobRun`). -/
structure JobRun where
  job_id : String
  workload : String
  policy_id : Option String
  status : String
  submitted_at : Int
  started_at : Option Int
  finished_at : Option Int
  metrics : List (String × PyFloat)
  tags : List String
  notes : Option String
deriving DecidableEq, Repr

/-- The job store's dict `job_id -> JobRun` in insertion order. -/
abbrev JobStoreState := List JobRun

/-- Embeds `JobStore.record` (job_store.py): `self._jobs[job.job_id] = job`,
i.e. replace the entry with that id in place, else append. -/
def JobStore.record : JobStoreState → JobRun → JobStoreState
  | [], job => [job]
  | j :: rest, job =>
      if j.job_id = job.job_id then job :: rest else j :: JobStore.record rest job

/-- Embeds `JobStore.upsert` (job_store.py): build a fresh `JobRun` from the
fields and `record` it. -/
def JobStore.upsert (jobs : JobStoreState) (job_id workload : String)
    (policy_id : Option String) (status : String) (submitted_at : Int)
    (started_at finished_at : Option Int) (metrics : List (String × PyFloat))
    (tags : List String) (notes : Option String) : JobStoreState :=
  JobStore.record jobs
    ⟨job_id, workload, policy_id, status, submitted_at, started_at, finished_at,
     metrics, tags, notes⟩

def JobStore.get (jobs : JobStoreState) (job_id : String) : Option JobRun :=
  jobs.find? (fun j => j.job_id == job_id)

/-- The `_sort_key` of `JobStore.recent` (job_store.py):
`job.finished_at or job.started_at or job.submitted_at` (datetimes are never
falsy, so `or` here is exactly option fallback). -/
def job_sort_key (j : JobRun) : Int :=
  match j.finished_at with
  | some t => t
  | none =>
      match j.started_at with
      | some t => t
      | none => j.submitted_at

/-- The ordering used by `sorted(..., key=_sort_key, reverse=True)`: `a` may
precede `b` iff `a`'s key is at least `b`'s.  Python's sort is stable, so the
result is exactly a stable insertion sort under this total preorder. -/
def jobGe (a b : JobRun) : Prop := job_sort_key b ≤ job_sort_key a

instance : DecidableRel jobGe :=
  fun a b => inferInstanceAs (Decidable (job_sort_key b ≤ job_sort_key a))

instance : IsTotal JobRun jobGe := ⟨fun a b => le_total (job_sort_key b) (job_sort_key a)⟩

instance : IsTrans JobRun jobGe := ⟨fun _ _ _ hab hbc => le_trans hbc hab⟩

/-- Embeds `JobStore.recent` (job_store.py): stable sort descending by the
effective timestamp, truncated to `limit`. -/
def JobStore.recent (jobs : JobStoreState) (limit : Nat) : List JobRun :=
  (List.insertionSort jobGe jobs).take limit

/-- Embeds `avg_vector` (app.py): mean of the parseable finite values, NaN when
there are none.  A row's value is `none` when `float(...)` raised. -/
def avg_vector (rows : List (Option PyFloat)) : PyFloat :=
  let values := rows.filterMap (fun r =>
    match r with
    | some (.fin q) => some q
    | _ => none)
  if values.isEmpty then .nan else .fin (values.sum / (values.length : ℚ))

/-- Python-dict insertion for string-keyed scalar maps. -/
def dictInsert (k : String) (v : PyFloat) : List (String × PyFloat) → List (String × PyFloat)
  | [] => [(k, v)]
  | (k', v') :: rest => if k' = k then (k, v) :: rest else (k', v') :: dictInsert k v rest

/-- Embeds `fetch_scalar_map` (app.py): rows whose value fails to parse
(`none`) or is non-finite are skipped; the rest populate `output[instance]`. -/
def fetch_scalar_map (rows : List (String × Option PyFloat)) : List (String × PyFloat) :=
  rows.foldl
    (fun output row =>
      match row.2 with
      | none => output
      | some v => if v.isFinite then dictInsert row.1 v output else output)
    []

/-- Python's `round` rounds half to even. -/
def round_half_even (x : ℚ) : Int :=
  let f := ⌊x⌋
  if x - f < 1 / 2 then f
  else if 1 / 2 < x - f then f + 1
  else if f % 2 = 0 then f else f + 1

/-- Model of `round(x, 2)`. -/
def round2 (x : ℚ) : ℚ := (round_half_even (x * 100) : ℚ) / 100

/-- One contention signal dictionary (`_contention_signal`, app.py). -/
structure ContentionSignal where
  metric : String
  description : String
  observed_value : ℚ
  threshold : ℚ
deriving DecidableEq, Repr

/-- The conditional append of one contention signal inside
`build_workload_profile` (app.py): emitted only when the scalar is finite and
at or above its hot threshold. -/
def hot_signal (v : PyFloat) (hot : ℚ) (metricName desc : String) : List ContentionSignal :=
  match v with
  | .fin q => if q ≥ hot then [⟨metricName, desc, round2 q, hot⟩] else []
  | _ => []

/-- Embeds the contention-signal block of `build_workload_profile` (app.py,
lines 227-254): the three percentage scalars checked against their configured
hot thresholds, in order. -/
def contention_signals (cpu_util mem_used disk_used : PyFloat)
    (cpu_hot_pct mem_hot_pct disk_hot_pct : ℚ) : List ContentionSignal :=
  hot_signal cpu_util cpu_hot_pct "cpu_utilization_pct"
      "Sustained CPU utilization exceeds target headroom." ++
    hot_signal mem_used mem_hot_pct "mem_used_pct"
      "Available memory is tight; consider spreading or throttling jobs." ++
    hot_signal disk_used disk_hot_pct "disk_used_pct"
      "Disk usage is approaching the configured guardrail."

/-- Embeds the candidate filter of `scheduler_assign` (app.py, lines 678-686):
a record is skipped iff `policy_tags` is non-empty and has no (case-sensitive)
intersection with its `target_workloads`. -/
def scheduler_candidate_records (store : PolicyStoreState) (policy_tags : List String) :
    List PolicyRecord :=
  store.filter (fun record =>
    if policy_tags ≠ [] ∧ policy_tags.toFinset ∩ record.target_workloads.toFinset = ∅ then
      false
    else true)

/-- Model of Python `str.lower()` over the ASCII strings the store holds
(`String.mk` of the character-wise lowercase). -/
def py_lower (s : String) : String := String.mk (s.data.map Char.toLower)

/-- Model of Python `str.split()` with no separator: split on runs of
whitespace, dropping empty pieces.  `acc` accumulates the current token in
reverse. -/
def split_ws_go (acc : List Char) : List Char → List String
  | [] => if acc.isEmpty then [] else [String.mk acc.reverse]
  | c :: rest =>
      if c.isWhitespace then
        if acc.isEmpty then split_ws_go [] rest
        else String.mk acc.reverse :: split_ws_go [] rest
      else split_ws_go (c :: acc) rest

def str_tokens (s : String) : List String := split_ws_go [] s.data

/-- The searchable text of a record (`PolicyStore.search`, policy_store.py):
name, description, intent, target workloads and guardrails joined by spaces. -/
def record_text (record : PolicyRecord) : String :=
  String.intercalate " "
    [record.name, record.description, record.intent,
     String.intercalate " " record.target_workloads,
     String.intercalate " " record.guardrails]

def sum_sq (l : List ℚ) : ℚ := (l.map (fun a => a * a)).sum

def dot_product (u v : List ℚ) : ℚ := ((u.zip v).map (fun p => p.1 * p.2)).sum

/-- The embedding branch of `PolicyStore.search` (policy_store.py).  `math.sqrt`
is not rational, so the square root is abstracted as the parameter `sqrtFn`;
every theorem about search holds for any `sqrtFn` that is positive exactly on
positive inputs, which the real square root is. -/
def embedding_score_code (sqrtFn : ℚ → ℚ) (query_embedding : Option (List ℚ))
    (emb : List ℚ) : ℚ :=
  match query_embedding with
  | none => 0.0
  | some u =>
      if u ≠ [] ∧ emb ≠ [] ∧ u.length = emb.length then
        let norm_q := sqrtFn (sum_sq u)
        let norm_r := sqrtFn (sum_sq emb)
        if 0 < norm_q ∧ 0 < norm_r then dot_product u emb / (norm_q * norm_r) else 0.0
      else 0.0

/-- Ordering used by `scored.sort(key=lambda item: item[1], reverse=True)`. -/
def scoredGe (a b : PolicyRecord × ℚ) : Prop := b.2 ≤ a.2

instance : DecidableRel scoredGe :=
  fun a b => inferInstanceAs (Decidable (b.2 ≤ a.2))

instance : IsTotal (PolicyRecord × ℚ) scoredGe := ⟨fun a b => le_total b.2 a.2⟩

instance : IsTrans (PolicyRecord × ℚ) scoredGe := ⟨fun _ _ _ hab hbc => le_trans hbc hab⟩

/-- The loop body of `PolicyStore.search` (policy_store.py) for one record:
`none` when the non-empty tag filter has no case-insensitive intersection with
the record's target workloads, else the record paired with its hybrid score.
`query.lower().strip()` followed by `.split()` equals whitespace tokenization
of the lowercased query, which `str_tokens` performs directly. -/
def search_scored_entry (sqrtFn : ℚ → ℚ) (query : String) (tags : List String)
    (query_embedding : Option (List ℚ)) (record : PolicyRecord) :
    Option (PolicyRecord × ℚ) :=
  let tags_lower : Finset String := (tags.map py_lower).toFinset
  let query_tokens : Finset String := (str_tokens (py_lower query)).toFinset
  if tags_lower ≠ ∅ ∧
      tags_lower ∩ (record.target_workloads.map py_lower).toFinset = ∅ then
    none
  else
    let text_tokens := (str_tokens (py_lower (record_text record))).toFinset
    let overlap : Nat := if query_tokens ≠ ∅ then (query_tokens ∩ text_tokens).card else 0
    let token_score : ℚ :=
      if query_tokens ≠ ∅ then (overlap : ℚ) / (max query_tokens.card 1 : ℚ) else 0.0
    let e_score := embedding_score_code sqrtFn query_embedding record.embedding
    some (record, token_score * 0.6 + e_score * 0.4)

/-- Embeds `PolicyStore.search` (policy_store.py): build the scored candidate
list, stable-sort it descending by score, truncate to `limit`. -/
def PolicyStore.search (sqrtFn : ℚ → ℚ) (records : PolicyStoreState) (query : String)
    (limit : Nat) (tags : List String) (query_embedding : Option (List ℚ)) :
    List (PolicyRecord × ℚ) :=
  (List.insertionSort scoredGe
      (records.filterMap (search_scored_entry sqrtFn query tags query_embedding))).take
    limit

/-- Cosine similarity, with the square root abstracted as `sqrtFn`. -/
def cosine_similarity (sqrtFn : ℚ → ℚ) (u v : List ℚ) : ℚ :=
  dot_product u v / (sqrtFn (sum_sq u) * sqrtFn (sum_sq v))

/-- The spec's description of the embedding score: the cosine similarity when
both embeddings are present, of equal length and of non-zero norm, else 0. -/
def embedding_score_specified (sqrtFn : ℚ → ℚ) (query_embedding : Option (List ℚ))
    (emb : List ℚ) : ℚ :=
  match query_embedding with
  | none => 0
  | some u =>
      if u.length = emb.length ∧ sum_sq u ≠ 0 ∧ sum_sq emb ≠ 0 then
        cosine_similarity sqrtFn u emb
      else 0

/-- The spec's description of the token score: intersection size over
`max(|query tokens|, 1)` (0 for an empty query falls out as `0 / 1`). -/
def token_score_specified (query_tokens text_tokens : Finset String) : ℚ :=
  ((query_tokens ∩ text_tokens).card : ℚ) / (max query_tokens.card 1 : ℚ)

/-- The spec's candidate condition: all records qualify for an empty tag list,
else the tag intersection (case-insensitive) must be non-empty. -/
def specified_keep (tags : List String) (record : PolicyRecord) : Bool :=
  decide (tags = [] ∨
    ((tags.map py_lower).toFinset ∩
      (record.target_workloads.map py_lower).toFinset).Nonempty)

/-- The spec's score of one candidate:
`0.6 * token_score + 0.4 * embedding_score`. -/
def specified_score (sqrtFn : ℚ → ℚ) (query : String) (query_embedding : Option (List ℚ))
    (record : PolicyRecord) : ℚ :=
  0.6 * token_score_specified ((str_tokens (py_lower query)).toFinset)
      ((str_tokens (py_lower (record_text record))).toFinset) +
    0.4 * embedding_score_specified sqrtFn query_embedding record.embedding

/-- The spec's description of `search`: filter by case-insensitive tag
intersection when `tags` is non-empty, score each candidate, sort descending
(stably), truncate to `limit`. -/
def search_specified (sqrtFn : ℚ → ℚ) (records : PolicyStoreState) (query : String)
    (limit : Nat) (tags : List String) (query_embedding : Option (List ℚ)) :
    List (PolicyRecord × ℚ) :=
  (List.insertionSort scoredGe
      ((records.filter (specified_keep tags)).map
        (fun record => (record, specified_score sqrtFn query query_embedding record)))).take
    limit

lemma penalties_go_fst_eq_countP (ms : List (String × PyFloat)) (gs : List String) :
    (penalties_go ms gs).1 = gs.countP (guardrail_breached ms) := by
  induction gs with
  | nil => rfl
  | cons g gs ih =>
      cases hp : parse_guardrail g with
      | none => simp [penalties_go, List.countP_cons, guardrail_breached, hp, ih]
      | some t =>
          obtain ⟨metric, operator, threshold⟩ := t
          cases hl : ms.lookup metric with
          | none => simp [penalties_go, List.countP_cons, guardrail_breached, hp, hl, ih]
          | some actual =>
              by_cases hf : guardrail_failed actual operator threshold
              · simp [penalties_go, List.countP_cons, guardrail_breached, hp, hl, hf, ih]
              · simp [penalties_go, List.countP_cons, guardrail_breached, hp, hl, hf, ih]

lemma score_policy_formula (record : PolicyRecord) (workload_tags : Finset String)
    (metrics : List (String × PyFloat)) :
    (score_policy_for_batch record workload_tags metrics).score =
      1.0 + 2.0 * ((workload_tags ∩ record.target_workloads.toFinset).card : ℚ) +
        0.25 * (min record.history.length 5 : ℚ) +
        (if record.last_verified_at.isSome then (0.5 : ℚ) else 0) -
        1.5 * (record.guardrails.countP (guardrail_breached metrics) : ℚ) := by
  simp only [score_policy_for_batch, guardrail_penalties_for_metrics,
    penalties_go_fst_eq_countP]
  by_cases h : record.last_verified_at.isSome <;> simp [h] <;> ring

/-- C1: for every policy record, workload tag set and metrics mapping,
`score_policy_for_batch` returns the score
`1.0 + 2.0*overlap + 0.25*min(|history|, 5) + (0.5 if last_verified_at else 0)
 - 1.5*(breached guardrails)`, where overlap is the case-sensitive tag
intersection size and only parseable guardrails whose metric is present in the
mapping can count as breached (`guardrail_breached`). -/
theorem score_policy_for_batch_spec (record : PolicyRecord) (workload_tags : Finset String)
    (metrics : List (String × PyFloat)) :
    (score_policy_for_batch record workload_tags metrics).score =
      1.0 + 2.0 * ((workload_tags ∩ record.target_workloads.toFinset).card : ℚ) +
        0.25 * (min record.history.length 5 : ℚ) +
        (if record.last_verified_at.isSome then (0.5 : ℚ) else 0) -
        1.5 * (record.guardrails.countP (guardrail_breached metrics) : ℚ) :=
  score_policy_formula record workload_tags metrics

/-- C2: under operator `<=` a guardrail is breached iff actual > threshold,
under `>=` iff actual < threshold, under `<` iff actual ≥ threshold, under `>`
iff actual ≤ threshold; any non-finite actual is breached for every operator;
and an actual exactly equal to the threshold under `<=` is not breached. -/
theorem guardrail_failed_spec (q t : ℚ) :
    (guardrail_failed (.fin q) "<=" t = true ↔ t < q) ∧
    (guardrail_failed (.fin q) ">=" t = true ↔ q < t) ∧
    (guardrail_failed (.fin q) "<" t = true ↔ t ≤ q) ∧
    (guardrail_failed (.fin q) ">" t = true ↔ q ≤ t) ∧
    (∀ operator : String,
      guardrail_failed .nan operator t = true ∧
      guardrail_failed .inf operator t = true ∧
      guardrail_failed .ninf operator t = true) ∧
    guardrail_failed (.fin t) "<=" t = false := by
  refine ⟨?_, ?_, ?_, ?_, fun operator => ⟨rfl, rfl, rfl⟩, ?_⟩ <;>
    simp [guardrail_failed]

/-- A small concrete policy used to instantiate hypotheses of the theorems. -/
def demoRecord : PolicyRecord :=
  { id := "p1"
    name := "P1"
    description := "keep cpu cool"
    intent := "steady"
    target_workloads := ["web", "batch"]
    guardrails := ["cpu_pct<=80"]
    embedding := []
    kpis := []
    notes := []
    created_at := 0
    updated_at := 0
    last_verified_at := none
    last_activation_token := none
    history := [] }

/-- C8: holding the breached-guardrail count fixed (same record and metrics),
the score is monotonically non-decreasing in the overlap count; holding the
overlap fixed (same record and tags), it is monotonically non-increasing in
the breached-guardrail count. -/
theorem score_policy_for_batch_monotone :
    (∀ (record : PolicyRecord) (tags₁ tags₂ : Finset String)
        (metrics : List (String × PyFloat)),
      (score_policy_for_batch record tags₁ metrics).overlap ≤
          (score_policy_for_batch record tags₂ metrics).overlap →
        (score_policy_for_batch record tags₁ metrics).score ≤
          (score_policy_for_batch record tags₂ metrics).score) ∧
    (∀ (record : PolicyRecord) (tags : Finset String)
        (ms₁ ms₂ : List (String × PyFloat)),
      (guardrail_penalties_for_metrics record ms₁).1 ≤
          (guardrail_penalties_for_metrics record ms₂).1 →
        (score_policy_for_batch record tags ms₂).score ≤
          (score_policy_for_batch record tags ms₁).score) := by
  constructor
  · intro record tags₁ tags₂ metrics h
    have h' : ((tags₁ ∩ record.target_workloads.toFinset).card : ℚ) ≤
        ((tags₂ ∩ record.target_workloads.toFinset).card : ℚ) := by
      exact_mod_cast (by simpa [score_policy_for_batch] using h)
    rw [score_policy_formula, score_policy_formula]
    linarith
  · intro record tags ms₁ ms₂ h
    have h' : ((record.guardrails.countP (guardrail_breached ms₁) : ℚ)) ≤
        (record.guardrails.countP (guardrail_breached ms₂) : ℚ) := by
      exact_mod_cast (by
        simpa [guardrail_penalties_for_metrics, penalties_go_fst_eq_countP] using h)
    rw [score_policy_formula, score_policy_formula]
    linarith

/-- Witness for C8 at a concrete record, tag sets and metric maps. -/
theorem score_policy_for_batch_monotone_witness :
    ((score_policy_for_batch demoRecord ∅ []).overlap ≤
        (score_policy_for_batch demoRecord {"web"} []).overlap ∧
      (score_policy_for_batch demoRecord ∅ []).score ≤
        (score_policy_for_batch demoRecord {"web"} []).score) ∧
    ((guardrail_penalties_for_metrics demoRecord []).1 ≤
        (guardrail_penalties_for_metrics demoRecord [("cpu_pct", .fin 90)]).1 ∧
      (score_policy_for_batch demoRecord {"web"} [("cpu_pct", .fin 90)]).score ≤
        (score_policy_for_batch demoRecord {"web"} []).score) :=
  ⟨⟨by decide, score_policy_for_batch_monotone.1 demoRecord ∅ {"web"} [] (by decide)⟩,
   ⟨by decide,
    score_policy_for_batch_monotone.2 demoRecord {"web"} [] [("cpu_pct", .fin 90)]
      (by decide)⟩⟩

lemma job_ids_record (jobs : JobStoreState) (j : JobRun) :
    (JobStore.record jobs j).map (fun x => x.job_id) =
      if j.job_id ∈ jobs.map (fun x => x.job_id) then jobs.map (fun x => x.job_id)
      else jobs.map (fun x => x.job_id) ++ [j.job_id] := by
  induction jobs with
  | nil => simp [JobStore.record]
  | cons x xs ih =>
      by_cases h : x.job_id = j.job_id
      · simp [JobStore.record, h]
      · simp only [JobStore.record, if_neg h, List.map_cons, ih, List.mem_cons]
        have h' : ¬ j.job_id = x.job_id := fun hh => h hh.symm
        by_cases hmem : j.job_id ∈ xs.map (fun x => x.job_id) <;>
          simp [h', hmem]

lemma job_ids_record_nodup (jobs : JobStoreState) (j : JobRun)
    (h : (jobs.map (fun x => x.job_id)).Nodup) :
    ((JobStore.record jobs j).map (fun x => x.job_id)).Nodup := by
  rw [job_ids_record]
  split_ifs with hmem
  · exact h
  · simp [List.nodup_append, h, hmem]

lemma job_ids_foldl_nodup (seq : List JobRun) :
    ∀ s : JobStoreState, (s.map (fun x => x.job_id)).Nodup →
      ((seq.foldl JobStore.record s).map (fun x => x.job_id)).Nodup := by
  induction seq with
  | nil => intro s h; simpa using h
  | cons j seq ih => intro s h; exact ih _ (job_ids_record_nodup s j h)

lemma jobstore_get_record (jobs : JobStoreState) (j : JobRun) :
    JobStore.get (JobStore.record jobs j) j.job_id = some j := by
  induction jobs with
  | nil => simp [JobStore.record, JobStore.get]
  | cons x xs ih =>
      by_cases h : x.job_id = j.job_id
      · simp [JobStore.record, h, JobStore.get]
      · simpa [JobStore.record, h, JobStore.get, List.find?] using ih

lemma jobstore_record_length (jobs : JobStoreState) (j : JobRun) :
    (JobStore.record jobs j).length =
      if j.job_id ∈ jobs.map (fun x => x.job_id) then jobs.length
      else jobs.length + 1 := by
  have hm : (JobStore.record jobs j).length =
      ((JobStore.record jobs j).map (fun x => x.job_id)).length := by simp
  rw [hm, job_ids_record]
  split_ifs <;> simp

/-- C4: immediately after an upsert (`record`) of a job, `get` on its id
returns exactly that job; an upsert replaces in place (the store length grows
only when the id is new); and after any sequence of upserts starting from the
empty store, `list()` never holds two entries with the same job_id. -/
theorem job_store_last_write_wins :
    (∀ (jobs : JobStoreState) (j : JobRun),
      JobStore.get (JobStore.record jobs j) j.job_id = some j) ∧
    (∀ (jobs : JobStoreState) (j : JobRun),
      (JobStore.record jobs j).length =
        if j.job_id ∈ jobs.map (fun x => x.job_id) then jobs.length
        else jobs.length + 1) ∧
    (∀ seq : List JobRun,
      ((seq.foldl JobStore.record []).map (fun x => x.job_id)).Nodup) :=
  ⟨jobstore_get_record, jobstore_record_length,
   fun seq => job_ids_foldl_nodup seq [] (by simp)⟩

lemma filter_orderedInsert_key (t : Int) (a : JobRun) (l : List JobRun) :
    (List.orderedInsert jobGe a l).filter (fun j => job_sort_key j == t) =
      if job_sort_key a == t then
        a :: l.filter (fun j => job_sort_key j == t)
      else l.filter (fun j => job_sort_key j == t) := by
  induction l with
  | nil => simp [List.orderedInsert, List.filter_cons]
  | cons b l ih =>
      by_cases hab : jobGe a b
      · simp only [List.orderedInsert, if_pos hab, List.filter_cons]
      · have hkey : job_sort_key a < job_sort_key b := by
          have := not_le.mp hab
          exact this
        simp only [List.orderedInsert, if_neg hab, List.filter_cons, ih]
        by_cases hpa : job_sort_key a = t
        · have hpb : ¬ job_sort_key b = t := by omega
          simp [hpa, hpb]
        · simp only [beq_iff_eq, if_neg hpa]

lemma filter_insertionSort_key (t : Int) (l : List JobRun) :
    (List.insertionSort jobGe l).filter (fun j => job_sort_key j == t) =
      l.filter (fun j => job_sort_key j == t) := by
  induction l with
  | nil => rfl
  | cons a l ih =>
      simp only [List.insertionSort, filter_orderedInsert_key, ih, List.filter_cons]

/-- C5: `recent(limit)` returns at most `limit` entries, sorted descending by
the effective timestamp (finished_at, else started_at, else submitted_at); the
sort is a permutation of the store that keeps equal-keyed entries in their
original order (stable ties); and, the model being a pure function of the
store, repeated calls without intervening mutation return the same sequence. -/
theorem job_store_recent_spec (jobs : JobStoreState) (limit : Nat) :
    (JobStore.recent jobs limit).length ≤ limit ∧
    List.Sorted jobGe (JobStore.recent jobs limit) ∧
    (List.insertionSort jobGe jobs).Perm jobs ∧
    (∀ t : Int, (List.insertionSort jobGe jobs).filter (fun j => job_sort_key j == t) =
      jobs.filter (fun j => job_sort_key j == t)) ∧
    JobStore.recent jobs limit = JobStore.recent jobs limit := by
  refine ⟨?_, ?_, List.perm_insertionSort jobGe jobs, fun t => filter_insertionSort_key t jobs,
    rfl⟩
  · exact List.length_take_le limit _
  · exact (List.sorted_insertionSort jobGe jobs).sublist (List.take_sublist limit _)

lemma evaluate_guardrails_go_eq_filterMap (ms : List (String × PyFloat))
    (os : List (String × ℚ)) (gs : List String) :
    evaluate_guardrails_go ms os gs = gs.filterMap (violation_of ms os) := by
  induction gs with
  | nil => rfl
  | cons g gs ih =>
      cases hp : parse_guardrail g with
      | none => simp [evaluate_guardrails_go, violation_of, hp, ih, List.filterMap_cons]
      | some t =>
          obtain ⟨metric, operator, threshold⟩ := t
          cases hl : ms.lookup metric with
          | none =>
              simp [evaluate_guardrails_go, violation_of, hp, hl, ih, List.filterMap_cons]
          | some actual =>
              by_cases hf :
                  guardrail_failed actual operator ((os.lookup metric).getD threshold)
              · simp [evaluate_guardrails_go, violation_of, hp, hl, hf, ih,
                  List.filterMap_cons]
              · simp [evaluate_guardrails_go, violation_of, hp, hl, hf, ih,
                  List.filterMap_cons]

/-- C3: for an existing policy and a non-empty metrics payload, the verify
endpoint issues an activation token iff guardrail evaluation yields no
violation; each guardrail that is unparseable, has its metric absent, or
breaches its (possibly overridden) threshold contributes exactly one
violation (`violation_of`); and a non-empty violation list yields a rejected
response carrying it, with the store (hence `last_verified_at` and
`last_activation_token`) left unchanged. -/
theorem policies_verify_spec (store : PolicyStoreState) (policy_id : String)
    (metrics : List (String × PyFloat)) (overrides : List (String × ℚ))
    (dn : Option String) (token : String) (now : Int) (record : PolicyRecord)
    (hrec : policy_store_get store policy_id = some record)
    (hm : metrics ≠ []) :
    (evaluate_guardrails record metrics overrides =
        record.guardrails.filterMap (violation_of metrics overrides)) ∧
    ((policies_verify store policy_id metrics overrides dn token now).1 = .ok token ↔
        evaluate_guardrails record metrics overrides = []) ∧
    (evaluate_guardrails record metrics overrides ≠ [] →
      (policies_verify store policy_id metrics overrides dn token now).1 =
          .rejected (evaluate_guardrails record metrics overrides) ∧
        (policies_verify store policy_id metrics overrides dn token now).2 = store) := by
  have hempty : metrics.isEmpty = false := by
    cases metrics with
    | nil => cases hm rfl
    | cons a l => rfl
  refine ⟨evaluate_guardrails_go_eq_filterMap metrics overrides record.guardrails, ?_, ?_⟩
  · by_cases hv : evaluate_guardrails record metrics overrides = [] <;>
      simp [policies_verify, hrec, hempty, hv, List.isEmpty_iff]
  · intro hv
    simp [policies_verify, hrec, hempty, List.isEmpty_iff, hv]

/-- Witness for C3: a policy whose only guardrail `cpu_pct<=80` is breached by
`cpu_pct = 85`, so verification is rejected and the store is untouched. -/
theorem policies_verify_spec_witness :
    policy_store_get [demoRecord] "p1" = some demoRecord ∧
    ([("cpu_pct", PyFloat.fin 85)] : List (String × PyFloat)) ≠ [] ∧
    evaluate_guardrails demoRecord [("cpu_pct", PyFloat.fin 85)] [] ≠ [] ∧
    ((policies_verify [demoRecord] "p1" [("cpu_pct", PyFloat.fin 85)] [] none "tok" 3).1 =
        .rejected (evaluate_guardrails demoRecord [("cpu_pct", PyFloat.fin 85)] []) ∧
      (policies_verify [demoRecord] "p1" [("cpu_pct", PyFloat.fin 85)] [] none "tok" 3).2 =
        [demoRecord]) :=
  ⟨by decide, by decide, by decide,
   (policies_verify_spec [demoRecord] "p1" [("cpu_pct", PyFloat.fin 85)] [] none "tok" 3
      demoRecord (by decide) (by decide)).2.2 (by decide)⟩

lemma dictInsert_all (p : String × PyFloat → Bool) (k : String) (v : PyFloat)
    (l : List (String × PyFloat)) (hl : l.all p = true) (hv : p (k, v) = true) :
    (dictInsert k v l).all p = true := by
  induction l with
  | nil => simp [dictInsert, hv]
  | cons kv rest ih =>
      simp only [List.all_cons, Bool.and_eq_true] at hl
      by_cases h : kv.1 = k
      · cases kv
        simp_all [dictInsert]
      · cases kv
        simp_all [dictInsert]

lemma fetch_foldl_all (rows : List (String × Option PyFloat)) :
    ∀ acc : List (String × PyFloat), (acc.all fun pr => pr.2.isFinite) = true →
      ((rows.foldl
          (fun output row =>
            match row.2 with
            | none => output
            | some v => if v.isFinite then dictInsert row.1 v output else output)
          acc).all fun pr => pr.2.isFinite) = true := by
  induction rows with
  | nil => intro acc h; simpa using h
  | cons row rows ih =>
      intro acc h
      cases hv : row.2 with
      | none => simpa [hv] using ih acc h
      | some v =>
          by_cases hf : v.isFinite = true
          · have : (dictInsert row.1 v acc).all (fun pr => pr.2.isFinite) = true :=
              dictInsert_all _ _ _ _ h hf
            simpa [hv, hf] using ih _ this
          · simp only [Bool.not_eq_true] at hf
            simpa [hv, hf] using ih acc h

lemma hot_signal_any_ne (v : PyFloat) (hot : ℚ) (name desc target : String)
    (h : name ≠ target) :
    ((hot_signal v hot name desc).any fun s => s.metric == target) = false := by
  cases v with
  | fin q => by_cases hq : q ≥ hot <;> simp [hot_signal, hq, h]
  | nan => rfl
  | inf => rfl
  | ninf => rfl

lemma hot_signal_any_self (v : PyFloat) (hot : ℚ) (name desc : String) :
    (((hot_signal v hot name desc).any fun s => s.metric == name) = true) ↔
      ∃ q : ℚ, v = .fin q ∧ hot ≤ q := by
  cases v with
  | fin q => by_cases hq : q ≥ hot <;> simp [hot_signal, hq]
  | nan => simp [hot_signal]
  | inf => simp [hot_signal]
  | ninf => simp [hot_signal]

/-- C7: every value in the map produced by `fetch_scalar_map` is finite
(non-finite or unparseable telemetry rows are dropped), and a contention
signal for the CPU / memory / disk percentage scalar is emitted exactly when
the fetched value is finite and at or above its configured hot threshold. -/
theorem telemetry_nonfinite_no_signal :
    (∀ rows : List (String × Option PyFloat),
      ((fetch_scalar_map rows).all fun pr => pr.2.isFinite) = true) ∧
    (∀ (cpu_util mem_used disk_used : PyFloat) (cpu_hot mem_hot disk_hot : ℚ),
      ((((contention_signals cpu_util mem_used disk_used cpu_hot mem_hot disk_hot).any
          fun s => s.metric == "cpu_utilization_pct") = true) ↔
        ∃ q : ℚ, cpu_util = .fin q ∧ cpu_hot ≤ q) ∧
      ((((contention_signals cpu_util mem_used disk_used cpu_hot mem_hot disk_hot).any
          fun s => s.metric == "mem_used_pct") = true) ↔
        ∃ q : ℚ, mem_used = .fin q ∧ mem_hot ≤ q) ∧
      ((((contention_signals cpu_util mem_used disk_used cpu_hot mem_hot disk_hot).any
          fun s => s.metric == "disk_used_pct") = true) ↔
        ∃ q : ℚ, disk_used = .fin q ∧ disk_hot ≤ q)) := by
  constructor
  · exact fun rows => fetch_foldl_all rows [] rfl
  · intro cpu_util mem_used disk_used cpu_hot mem_hot disk_hot
    refine ⟨?_, ?_, ?_⟩
    · have h1 := hot_signal_any_self cpu_util cpu_hot "cpu_utilization_pct"
        "Sustained CPU utilization exceeds target headroom."
      have h2 := hot_signal_any_ne mem_used mem_hot "mem_used_pct"
        "Available memory is tight; consider spreading or throttling jobs."
        "cpu_utilization_pct" (by decide)
      have h3 := hot_signal_any_ne disk_used disk_hot "disk_used_pct"
        "Disk usage is approaching the configured guardrail."
        "cpu_utilization_pct" (by decide)
      simp [contention_signals, List.any_append, h1, h2, h3]
    · have h1 := hot_signal_any_ne cpu_util cpu_hot "cpu_utilization_pct"
        "Sustained CPU utilization exceeds target headroom." "mem_used_pct" (by decide)
      have h2 := hot_signal_any_self mem_used mem_hot "mem_used_pct"
        "Available memory is tight; consider spreading or throttling jobs."
      have h3 := hot_signal_any_ne disk_used disk_hot "disk_used_pct"
        "Disk usage is approaching the configured guardrail." "mem_used_pct" (by decide)
      simp [contention_signals, List.any_append, h1, h2, h3]
    · have h1 := hot_signal_any_ne cpu_util cpu_hot "cpu_utilization_pct"
        "Sustained CPU utilization exceeds target headroom." "disk_used_pct" (by decide)
      have h2 := hot_signal_any_ne mem_used mem_hot "mem_used_pct"
        "Available memory is tight; consider spreading or throttling jobs."
        "disk_used_pct" (by decide)
      have h3 := hot_signal_any_self disk_used disk_hot "disk_used_pct"
        "Disk usage is approaching the configured guardrail."
      simp [contention_signals, List.any_append, h1, h2, h3]

lemma policy_store_get_put (store : PolicyStoreState) (record : PolicyRecord) :
    policy_store_get (policy_store_put store record) record.id = some record := by
  induction store with
  | nil => simp [policy_store_put, policy_store_get]
  | cons x xs ih =>
      by_cases h : x.id = record.id
      · simp [policy_store_put, h, policy_store_get]
      · simpa [policy_store_put, h, policy_store_get, List.find?] using ih

lemma policy_store_put_length (store : PolicyStoreState) (record : PolicyRecord) :
    (policy_store_put store record).length =
      if record.id ∈ store.map (fun r => r.id) then store.length
      else store.length + 1 := by
  induction store with
  | nil => simp [policy_store_put]
  | cons x xs ih =>
      by_cases h : x.id = record.id
      · simp [policy_store_put, h]
      · have h' : ¬ record.id = x.id := fun hh => h hh.symm
        by_cases hmem : record.id ∈ xs.map (fun r => r.id) <;>
          simp [policy_store_put, h, h', hmem, ih]

/-- A pre-existing policy with id `p1`, used to exercise duplicate creation. -/
def oldRecord : PolicyRecord :=
  { id := "p1"
    name := "old-policy"
    description := "original"
    intent := "original"
    target_workloads := ["web"]
    guardrails := []
    embedding := []
    kpis := []
    notes := []
    created_at := 0
    updated_at := 0
    last_verified_at := none
    last_activation_token := none
    history := [] }

/-- Counterexample to C9 as stated: with `p1` already in the store, the create
endpoint does not fail — it succeeds and the store afterwards holds the
replacement record (upsert), the old record being gone. -/
theorem policies_create_duplicate_counterexample :
    policy_store_get [oldRecord] "p1" = some oldRecord ∧
    (policies_create [oldRecord] (some "p1") "policy-gen" "replacement" "d" "i"
        [] [] none [] [] 7).2 =
      [(policies_create [oldRecord] (some "p1") "policy-gen" "replacement" "d" "i"
          [] [] none [] [] 7).1] ∧
    (policies_create [oldRecord] (some "p1") "policy-gen" "replacement" "d" "i"
        [] [] none [] [] 7).1.name = "replacement" := by
  decide

/-- C9 (amended): supplying an existing policy_id never fails at any layer;
the endpoint forwards the id to the store's `create`, which upserts by id —
the resulting store resolves the id to the freshly built record, and its size
is unchanged when the id already existed (replacement, not append). -/
theorem policies_create_upsert_spec (store : PolicyStoreState)
    (pid gen name d i : String) (tw gr : List String) (emb : Option (List ℚ))
    (kpis : List (String × PyFloat)) (notes : List String) (now : Int)
    (h : pid ≠ "") :
    (policies_create store (some pid) gen name d i tw gr emb kpis notes now).1.id = pid ∧
    policy_store_get
        (policies_create store (some pid) gen name d i tw gr emb kpis notes now).2 pid =
      some (policies_create store (some pid) gen name d i tw gr emb kpis notes now).1 ∧
    (policies_create store (some pid) gen name d i tw gr emb kpis notes now).2.length =
      (if pid ∈ store.map (fun r => r.id) then store.length else store.length + 1) := by
  refine ⟨by simp [policies_create, h, PolicyStore.create, PolicyStore.upsert], ?_, ?_⟩
  · simpa [policies_create, h, PolicyStore.create, PolicyStore.upsert] using
      policy_store_get_put store _
  · simpa [policies_create, h, PolicyStore.create, PolicyStore.upsert] using
      policy_store_put_length store _

/-- Witness for the amended C9 at a concrete store that already holds `p1`. -/
theorem policies_create_upsert_spec_witness :
    ("p1" : String) ≠ "" ∧
    ((policies_create [oldRecord] (some "p1") "g" "n" "d" "i" [] [] none [] [] 7).1.id =
        "p1" ∧
      policy_store_get
          (policies_create [oldRecord] (some "p1") "g" "n" "d" "i" [] [] none [] [] 7).2
          "p1" =
        some (policies_create [oldRecord] (some "p1") "g" "n" "d" "i" [] [] none [] [] 7).1 ∧
      (policies_create [oldRecord] (some "p1") "g" "n" "d" "i" [] [] none [] [] 7).2.length =
        (if "p1" ∈ [oldRecord].map (fun r => r.id) then [oldRecord].length
         else [oldRecord].length + 1)) :=
  ⟨by decide,
   policies_create_upsert_spec [oldRecord] "p1" "g" "n" "d" "i" [] [] none [] [] 7
     (by decide)⟩

/-- A policy targeting lowercase `web`, used to exhibit case sensitivity. -/
def caseRecord : PolicyRecord :=
  { id := "pc"
    name := "case-policy"
    description := ""
    intent := ""
    target_workloads := ["web"]
    guardrails := []
    embedding := []
    kpis := []
    notes := []
    created_at := 0
    updated_at := 0
    last_verified_at := none
    last_activation_token := none
    history := [] }

/-- C10: with a non-empty `policy_tags` filter, a policy is a batch-assign
candidate iff its target_workloads intersect the filter under case-sensitive
string equality; the record targeting `web` is excluded by the filter tag
`Web`, while policy search with the same tag (case-insensitive) still returns
it. -/
theorem scheduler_tag_filter_case_sensitive :
    (∀ (store : PolicyStoreState) (policy_tags : List String) (r : PolicyRecord),
      policy_tags ≠ [] →
      (r ∈ scheduler_candidate_records store policy_tags ↔
        r ∈ store ∧ ∃ t ∈ policy_tags, t ∈ r.target_workloads)) ∧
    scheduler_candidate_records [caseRecord] ["Web"] = [] ∧
    (PolicyStore.search (fun x => x) [caseRecord] "" 5 ["Web"] none).map (fun p => p.1) =
      [caseRecord] := by
  refine ⟨?_, by decide, by decide⟩
  intro store policy_tags r h
  simp only [scheduler_candidate_records, List.mem_filter]
  constructor
  · rintro ⟨hm, hp⟩
    refine ⟨hm, ?_⟩
    by_cases hc : policy_tags.toFinset ∩ r.target_workloads.toFinset = ∅
    · simp [h, hc] at hp
    · obtain ⟨x, hx⟩ := Finset.nonempty_iff_ne_empty.mpr hc
      simp only [Finset.mem_inter, List.mem_toFinset] at hx
      exact ⟨x, hx.1, hx.2⟩
  · rintro ⟨hm, t, ht, htw⟩
    refine ⟨hm, ?_⟩
    have hne : policy_tags.toFinset ∩ r.target_workloads.toFinset ≠ ∅ :=
      Finset.nonempty_iff_ne_empty.mp
        ⟨t, by simp [Finset.mem_inter, List.mem_toFinset, ht, htw]⟩
    simp [hne]

/-- Witness for C10: the lowercase filter tag `web` keeps `caseRecord`. -/
theorem scheduler_tag_filter_case_sensitive_witness :
    (["web"] : List String) ≠ [] ∧
    (caseRecord ∈ scheduler_candidate_records [caseRecord] ["web"] ↔
      caseRecord ∈ [caseRecord] ∧ ∃ t ∈ ["web"], t ∈ caseRecord.target_workloads) :=
  ⟨by decide,
   scheduler_tag_filter_case_sensitive.1 [caseRecord] ["web"] caseRecord (by decide)⟩

lemma sum_sq_nonneg (l : List ℚ) : 0 ≤ sum_sq l := by
  induction l with
  | nil => simp [sum_sq]
  | cons a l ih =>
      have ha := mul_self_nonneg a
      simp only [sum_sq, List.map_cons, List.sum_cons] at *
      linarith

lemma embedding_score_eq (sqrtFn : ℚ → ℚ)
    (hsqrt : ∀ x : ℚ, 0 ≤ x → (0 < sqrtFn x ↔ 0 < x))
    (qe : Option (List ℚ)) (emb : List ℚ) :
    embedding_score_code sqrtFn qe emb = embedding_score_specified sqrtFn qe emb := by
  cases qe with
  | none => norm_num [embedding_score_code, embedding_score_specified]
  | some u =>
      have hq := hsqrt (sum_sq u) (sum_sq_nonneg u)
      have hr := hsqrt (sum_sq emb) (sum_sq_nonneg emb)
      simp only [embedding_score_code, embedding_score_specified]
      by_cases hS : u.length = emb.length ∧ sum_sq u ≠ 0 ∧ sum_sq emb ≠ 0
      · obtain ⟨hlen, hu, he⟩ := hS
        have hune : u ≠ [] := by
          rintro rfl
          exact hu rfl
        have hene : emb ≠ [] := by
          rintro rfl
          exact he rfl
        have hqp : 0 < sqrtFn (sum_sq u) :=
          hq.mpr (lt_of_le_of_ne (sum_sq_nonneg u) (Ne.symm hu))
        have hrp : 0 < sqrtFn (sum_sq emb) :=
          hr.mpr (lt_of_le_of_ne (sum_sq_nonneg emb) (Ne.symm he))
        rw [if_pos ⟨hune, hene, hlen⟩, if_pos ⟨hqp, hrp⟩, if_pos ⟨hlen, hu, he⟩]
        rfl
      · rw [if_neg hS]
        by_cases hout : u ≠ [] ∧ emb ≠ [] ∧ u.length = emb.length
        · have hinner : ¬(0 < sqrtFn (sum_sq u) ∧ 0 < sqrtFn (sum_sq emb)) := by
            rintro ⟨h1, h2⟩
            exact hS ⟨hout.2.2, (hq.mp h1).ne', (hr.mp h2).ne'⟩
          rw [if_pos hout, if_neg hinner]
          norm_num
        · rw [if_neg hout]
          norm_num

lemma keep_cond_iff (tags : List String) (r : PolicyRecord) :
    ¬((tags.map py_lower).toFinset ≠ ∅ ∧
        (tags.map py_lower).toFinset ∩ (r.target_workloads.map py_lower).toFinset = ∅) ↔
      (tags = [] ∨
        ((tags.map py_lower).toFinset ∩
          (r.target_workloads.map py_lower).toFinset).Nonempty) := by
  constructor
  · intro h
    rcases not_and_or.mp h with h1 | h2
    · left
      have h1' : (tags.map py_lower).toFinset = ∅ := not_not.mp h1
      exact List.map_eq_nil_iff.mp ((List.toFinset_eq_empty_iff _).mp h1')
    · right
      exact Finset.nonempty_iff_ne_empty.mpr h2
  · rintro (rfl | hne)
    · intro hc
      exact hc.1 (by simp)
    · intro hc
      exact Finset.nonempty_iff_ne_empty.mp hne hc.2

lemma filterMap_eq_map_filter {α β : Type} (g : α → Option β) (p : α → Bool) (f : α → β)
    (h : ∀ a, g a = if p a then some (f a) else none) (l : List α) :
    l.filterMap g = (l.filter p).map f := by
  induction l with
  | nil => rfl
  | cons a l ih =>
      by_cases hp : p a <;>
        simp [List.filterMap_cons, List.filter_cons, h a, hp, ih]

lemma search_entry_eq (sqrtFn : ℚ → ℚ)
    (hsqrt : ∀ x : ℚ, 0 ≤ x → (0 < sqrtFn x ↔ 0 < x))
    (query : String) (tags : List String) (qe : Option (List ℚ)) :
    ∀ record : PolicyRecord,
      search_scored_entry sqrtFn query tags qe record =
        if specified_keep tags record then
          some (record, specified_score sqrtFn query qe record)
        else none := by
  intro record
  simp only [search_scored_entry, specified_keep, specified_score, decide_eq_true_eq]
  by_cases hkeep : tags = [] ∨
      ((tags.map py_lower).toFinset ∩
        (record.target_workloads.map py_lower).toFinset).Nonempty
  · have hskip := (keep_cond_iff tags record).mpr hkeep
    rw [if_neg hskip, if_pos hkeep]
    refine congrArg some (congrArg (Prod.mk record) ?_)
    rw [embedding_score_eq sqrtFn hsqrt qe record.embedding]
    by_cases hqt : (str_tokens (py_lower query)).toFinset = (∅ : Finset String) <;>
      simp [hqt, token_score_specified] <;> ring
  · have hskip := not_not.mp (fun h => hkeep ((keep_cond_iff tags record).mp h))
    rw [if_pos hskip, if_neg hkeep]

/-- C6: policy search equals its specification — with a non-empty tag list
only records whose target workloads intersect the tags case-insensitively are
scored, otherwise all records; each candidate scores
`0.6 * token_score + 0.4 * embedding_score` with the token score as
query/text token overlap over `max(|query tokens|, 1)` (0 for an empty query)
and the embedding score as cosine similarity when both embeddings are present,
of equal length, and of non-zero norm, else 0; results come back sorted
descending by score and truncated to `limit`.  `sqrtFn` abstracts `math.sqrt`
and is only assumed positive exactly on positive inputs. -/
theorem policy_search_spec (sqrtFn : ℚ → ℚ)
    (hsqrt : ∀ x : ℚ, 0 ≤ x → (0 < sqrtFn x ↔ 0 < x))
    (records : PolicyStoreState) (query : String) (limit : Nat) (tags : List String)
    (query_embedding : Option (List ℚ)) :
    PolicyStore.search sqrtFn records query limit tags query_embedding =
      search_specified sqrtFn records query limit tags query_embedding ∧
    List.Sorted scoredGe
      (PolicyStore.search sqrtFn records query limit tags query_embedding) := by
  constructor
  · unfold PolicyStore.search search_specified
    rw [filterMap_eq_map_filter (search_scored_entry sqrtFn query tags query_embedding)
      (specified_keep tags)
      (fun record => (record, specified_score sqrtFn query query_embedding record))
      (search_entry_eq sqrtFn hsqrt query tags query_embedding)]
  · unfold PolicyStore.search
    exact (List.sorted_insertionSort scoredGe _).sublist (List.take_sublist limit _)

/-- Witness for C6 with the identity standing in for the abstracted square
root (it is positive exactly on positive inputs), at a concrete store. -/
theorem policy_search_spec_witness :
    (∀ x : ℚ, 0 ≤ x → (0 < (fun y : ℚ => y) x ↔ 0 < x)) ∧
    (PolicyStore.search (fun y : ℚ => y) [demoRecord] "keep cpu" 5 ["WEB"] (some [1]) =
        search_specified (fun y : ℚ => y) [demoRecord] "keep cpu" 5 ["WEB"] (some [1]) ∧
      List.Sorted scoredGe
        (PolicyStore.search (fun y : ℚ => y) [demoRecord] "keep cpu" 5 ["WEB"]
          (some [1]))) :=
  ⟨fun _ _ => Iff.rfl,
   policy_search_spec (fun y : ℚ => y) (fun _ _ => Iff.rfl) [demoRecord] "keep cpu" 5
     ["WEB"] (some [1])⟩
